import Mathlib

/-!
Verification of the mkmock hook-and-restore mechanism.

This file is a shallow embedding of the two variants of the mkmock testing
header (measurement-kit/mkmock):

* the *barrier* variant (`src/mkmock.hpp`): the hook state carries
  `saved_value` and `saved_exc` fields, guarded by a `std::recursive_mutex`
  that `MKMOCK_WITH_ENABLED_HOOK` holds for the whole duration of the code
  snippet;
* the *fine-grained* variant (`src/unnamed/part_000`): the hook state has only
  `enabled` and `value`, guarded by a non-recursive `std::mutex` that is held
  only around the save/set and restore steps; the saved value and the captured
  exception live in stack locals of the macro expansion.

Per-tag hook state is modelled as a record; the C++ `Type value = {}`
value-initialization is modelled by `default` of an `Inhabited` instance.
The recursive mutex of the barrier variant is modelled by a hold count
(`lockCount`): `lock()` increments it, `unlock()` decrements it, and a
*different* thread can acquire it only when the count is zero.

A code snippet (the `CodeSnippet` argument of `MKMOCK_WITH_ENABLED_HOOK`) is
modelled by the inductive language `Block`: it can run call sites containing
`MKMOCK_HOOK` (the `check` constructor, carrying the value the real call
produced), throw an exception derived from `std::exception` (`throwRec`, a
*recognized* error), terminate abnormally in a way not derived from
`std::exception` (`throwUnrec`, an *unrecognized* error), and invoke
`MKMOCK_WITH_ENABLED_HOOK` recursively on the same tag (`withHook`), which the
implementation note in `src/mkmock.hpp` explicitly advertises.  Running a block
yields the final hook state, the trace of values the block observed at its
`MKMOCK_HOOK` call sites, and an outcome (normal / recognized exception /
unrecognized abnormal termination).
-/

namespace Mkmock

/-- Outcome of executing a code snippet: normal completion, an exception
derived from `std::exception` (recognized), or an abnormal termination that
`catch (const std::exception &)` does not intercept (unrecognized). -/
inductive Outcome (ε : Type) where
  | normal : Outcome ε
  | recognized : ε → Outcome ε
  | unrecognized : Outcome ε
deriving DecidableEq, Repr

/-- What `MKMOCK_WITH_ENABLED_HOOK` does to its caller: return normally,
re-raise a captured recognized error, or let an unrecognized error escape. -/
inductive RunResult (ε : Type) where
  | ok : RunResult ε
  | raised : ε → RunResult ε
  | escaped : RunResult ε
deriving DecidableEq, Repr

/-- The code snippets a test can pass to `MKMOCK_WITH_ENABLED_HOOK`,
restricted to interactions with the mechanism under a single tag.
`check real` is a call site whose real computation produced `real`, followed
by `MKMOCK_HOOK(Tag, rv)`; the value the snippet then observes in `rv` is
recorded in the trace.  `withHook` is a nested `MKMOCK_WITH_ENABLED_HOOK` on
the same tag. -/
inductive Block (α ε : Type) where
  | skip : Block α ε
  | seq : Block α ε → Block α ε → Block α ε
  | check : α → Block α ε
  | throwRec : ε → Block α ε
  | throwUnrec : Block α ε
  | withHook : α → Block α ε → Block α ε
deriving DecidableEq, Repr

/-- Hook state of the barrier variant (`src/mkmock.hpp`,
`MKMOCK_DEFINE_HOOK`): `enabled`, `value`, `saved_value`, `saved_exc`, and a
recursive mutex modelled by its hold count.  The C++ member initializers are
`enabled = false`, `value = {}`, `saved_value = {}`, empty `saved_exc`, and an
unlocked mutex. -/
structure BState (α ε : Type) where
  enabled : Bool
  value : α
  saved_value : α
  saved_exc : Option ε
  lockCount : Nat
deriving DecidableEq, Repr

/-- Hook state of the fine-grained variant (`src/unnamed/part_000`,
`MKMOCK_DEFINE_HOOK`): only `enabled` and `value` (plus a non-recursive
mutex, which that variant never holds across a code snippet and which we
therefore do not track). -/
structure FGState (α : Type) where
  enabled : Bool
  value : α
deriving DecidableEq, Repr

/-- The setup prologue of the barrier `MKMOCK_WITH_ENABLED_HOOK`
(`src/mkmock.hpp` lines 97-104): lock the recursive mutex, clear
`saved_exc`, save `value` into `saved_value`, install the mocked value, and
set `enabled`. -/
def setupB (s : BState α ε) (mocked : α) : BState α ε :=
  { enabled := true
    value := mocked
    saved_value := s.value
    saved_exc := none
    lockCount := s.lockCount + 1 }

/-- The teardown epilogue of the barrier `MKMOCK_WITH_ENABLED_HOOK`
(`src/mkmock.hpp` lines 111-122): disable, restore `value` from
`saved_value`, reset `saved_value` to `{}`, swap out `saved_exc`, unlock.
Returns the new state and the exception extracted by the swap (rethrown by
the macro when present). -/
def teardownB [Inhabited α] (s : BState α ε) : BState α ε × Option ε :=
  ({ enabled := false
     value := s.saved_value
     saved_value := default
     saved_exc := none
     lockCount := s.lockCount - 1 }, s.saved_exc)

/-- Run a code snippet against the barrier-variant hook state.  Yields the
final state, the trace of values observed at `MKMOCK_HOOK` call sites, and
the outcome.  A `check` observes `value` when `enabled` and the real value
otherwise (`src/mkmock.hpp` lines 43-50); a nested `withHook` performs the
full setup / try-catch / teardown protocol of `MKMOCK_WITH_ENABLED_HOOK`,
where an unrecognized termination skips both the catch and the teardown. -/
def runB [Inhabited α] : Block α ε → BState α ε → BState α ε × List α × Outcome ε
  | .skip, s => (s, [], .normal)
  | .check real, s => (s, [if s.enabled then s.value else real], .normal)
  | .throwRec e, s => (s, [], .recognized e)
  | .throwUnrec, s => (s, [], .unrecognized)
  | .seq a b, s =>
      let ra := runB a s
      match ra.2.2 with
      | .normal =>
          let rb := runB b ra.1
          (rb.1, ra.2.1 ++ rb.2.1, rb.2.2)
      | out => (ra.1, ra.2.1, out)
  | .withHook m body, s =>
      let r := runB body (setupB s m)
      match r.2.2 with
      | .unrecognized => (r.1, r.2.1, .unrecognized)
      | .normal =>
          let td := teardownB r.1
          (td.1, r.2.1,
            match td.2 with
            | some e => Outcome.recognized e
            | none => Outcome.normal)
      | .recognized e =>
          let td := teardownB { r.1 with saved_exc := some e }
          (td.1, r.2.1,
            match td.2 with
            | some e2 => Outcome.recognized e2
            | none => Outcome.normal)

/-- The barrier variant of `MKMOCK_WITH_ENABLED_HOOK` (`src/mkmock.hpp`
lines 92-123) as seen by its caller: setup, run the snippet, capture a
recognized exception into `saved_exc`, tear down, and re-raise the extracted
exception; an unrecognized termination propagates at once, skipping the
teardown. -/
def MKMOCK_WITH_ENABLED_HOOK [Inhabited α] (s : BState α ε) (mocked : α)
    (blk : Block α ε) : BState α ε × List α × RunResult ε :=
  let r := runB blk (setupB s mocked)
  match r.2.2 with
  | .unrecognized => (r.1, r.2.1, .escaped)
  | .normal =>
      let td := teardownB r.1
      (td.1, r.2.1,
        match td.2 with
        | some e => RunResult.raised e
        | none => RunResult.ok)
  | .recognized e =>
      let td := teardownB { r.1 with saved_exc := some e }
      (td.1, r.2.1,
        match td.2 with
        | some e2 => RunResult.raised e2
        | none => RunResult.ok)

/-- Run a code snippet against the fine-grained-variant hook state
(`src/unnamed/part_000`).  A nested `withHook` saves the current value in a
stack local, installs the mock, runs its body, and — unless the body
terminated unrecognizably — disables the hook and restores the saved value
before re-raising any captured exception (lines 67-91 of that file). -/
def runFG : Block α ε → FGState α → FGState α × List α × Outcome ε
  | .skip, s => (s, [], .normal)
  | .check real, s => (s, [if s.enabled then s.value else real], .normal)
  | .throwRec e, s => (s, [], .recognized e)
  | .throwUnrec, s => (s, [], .unrecognized)
  | .seq a b, s =>
      let ra := runFG a s
      match ra.2.2 with
      | .normal =>
          let rb := runFG b ra.1
          (rb.1, ra.2.1 ++ rb.2.1, rb.2.2)
      | out => (ra.1, ra.2.1, out)
  | .withHook m body, s =>
      let r := runFG body ⟨true, m⟩
      match r.2.2 with
      | .unrecognized => (r.1, r.2.1, .unrecognized)
      | .normal => (⟨false, s.value⟩, r.2.1, .normal)
      | .recognized e => (⟨false, s.value⟩, r.2.1, .recognized e)

/-- The fine-grained variant of `MKMOCK_WITH_ENABLED_HOOK`
(`src/unnamed/part_000` lines 67-91) as seen by its caller.  `SavedValue` is
a stack local, so the restore step writes `enabled := false` and
`value := SavedValue` regardless of what the snippet did to the state. -/
def MKMOCK_WITH_ENABLED_HOOK_fineGrained (s : FGState α) (mocked : α)
    (blk : Block α ε) : FGState α × List α × RunResult ε :=
  let r := runFG blk ⟨true, mocked⟩
  match r.2.2 with
  | .unrecognized => (r.1, r.2.1, .escaped)
  | .normal => (⟨false, s.value⟩, r.2.1, .ok)
  | .recognized e => (⟨false, s.value⟩, r.2.1, .raised e)

/-- Macro `MKMOCK_HOOK(Tag, Variable)` of the barrier variant
(`src/mkmock.hpp` lines 43-50): under the lock, overwrite the caller slot
with `value` when `enabled`; the hook state itself is not modified.  Returns
the new slot contents. -/
def MKMOCK_HOOK (s : BState α ε) (slot : α) : α :=
  if s.enabled then s.value else slot

/-- Macro `MKMOCK_HOOK(Tag, Variable)` of the fine-grained variant
(`src/unnamed/part_000` lines 36-43): identical logic over the smaller
state. -/
def MKMOCK_HOOK_fineGrained (s : FGState α) (slot : α) : α :=
  if s.enabled then s.value else slot

/-- Macro `MKMOCK_HOOK_ALLOC(Tag, Variable, Deleter)` (`src/mkmock.hpp`
lines 56-66): when `enabled`, first invoke `Deleter` on the slot if it is
not `nullptr`, then overwrite the slot with `value`.  The slot is a pointer,
modelled as `Option β` with `none` for `nullptr`; the result is the new slot
contents together with the list of pointers passed to the deleter. -/
def MKMOCK_HOOK_ALLOC (s : BState (Option β) ε) (slot : Option β) :
    Option β × List β :=
  if s.enabled then
    match slot with
    | some p => (s.value, [p])
    | none => (s.value, [])
  else (slot, [])

/-- Macro `MKMOCK_HOOK` when `MKMOCK_HOOK_ENABLE` is not defined
(`src/mkmock.hpp` line 31, `src/unnamed/part_000` line 30): the macro
expands to nothing, so the caller slot is returned unchanged and no state
exists to touch. -/
def MKMOCK_HOOK_disabled (slot : α) : α := slot

/-- Macro `MKMOCK_HOOK_ALLOC` when `MKMOCK_HOOK_ENABLE` is not defined
(`src/mkmock.hpp` line 37): expands to nothing — the slot is unchanged and
the deleter is never invoked. -/
def MKMOCK_HOOK_ALLOC_disabled (slot : Option β) : Option β × List β :=
  (slot, [])

/-- A block performs no nested `MKMOCK_WITH_ENABLED_HOOK` activation of the
same tag. -/
def noNest : Block α ε → Bool
  | .skip => true
  | .check _ => true
  | .throwRec _ => true
  | .throwUnrec => true
  | .seq a b => noNest a && noNest b
  | .withHook _ _ => false

/-- A block without nested activation never modifies the barrier-variant
hook state: `MKMOCK_HOOK` call sites only read it, and throwing changes
nothing. -/
lemma runB_noNest_fst [Inhabited α] (blk : Block α ε) :
    noNest blk = true → ∀ s : BState α ε, (runB blk s).1 = s := by
  induction blk with
  | skip => intro _ s; simp [runB]
  | check real => intro _ s; simp [runB]
  | throwRec e => intro _ s; simp [runB]
  | throwUnrec => intro _ s; simp [runB]
  | seq a b iha ihb =>
      intro h s
      simp only [noNest, Bool.and_eq_true] at h
      have h1 := iha h.1 s
      have h2 := ihb h.2 ((runB a s).1)
      cases hout : (runB a s).2.2 with
      | normal => simp only [runB, hout]; exact h2.trans h1
      | recognized e => simp only [runB, hout]; exact h1
      | unrecognized => simp only [runB, hout]; exact h1
  | withHook m body ih => intro h s; simp [noNest] at h

/-- A block without nested activation never modifies the fine-grained-variant
hook state. -/
lemma runFG_noNest_fst (blk : Block α ε) :
    noNest blk = true → ∀ s : FGState α, (runFG blk s).1 = s := by
  induction blk with
  | skip => intro _ s; simp [runFG]
  | check real => intro _ s; simp [runFG]
  | throwRec e => intro _ s; simp [runFG]
  | throwUnrec => intro _ s; simp [runFG]
  | seq a b iha ihb =>
      intro h s
      simp only [noNest, Bool.and_eq_true] at h
      have h1 := iha h.1 s
      have h2 := ihb h.2 ((runFG a s).1)
      cases hout : (runFG a s).2.2 with
      | normal => simp only [runFG, hout]; exact h2.trans h1
      | recognized e => simp only [runFG, hout]; exact h1
      | unrecognized => simp only [runFG, hout]; exact h1
  | withHook m body ih => intro h s; simp [noNest] at h

/-- On states that agree on `enabled` and `value`, a block without nested
activation produces the same observation trace and the same outcome in the
two variants. -/
lemma run_noNest_agree [Inhabited α] (blk : Block α ε) :
    noNest blk = true → ∀ (sB : BState α ε) (sF : FGState α),
      sB.enabled = sF.enabled → sB.value = sF.value →
      (runB blk sB).2 = (runFG blk sF).2 := by
  induction blk with
  | skip => intro _ sB sF he hv; simp [runB, runFG]
  | check real => intro _ sB sF he hv; simp [runB, runFG, he, hv]
  | throwRec e => intro _ sB sF he hv; simp [runB, runFG]
  | throwUnrec => intro _ sB sF he hv; simp [runB, runFG]
  | seq a b iha ihb =>
      intro h sB sF he hv
      simp only [noNest, Bool.and_eq_true] at h
      have hagree := iha h.1 sB sF he hv
      have h1 : (runB a sB).1 = sB := runB_noNest_fst a h.1 sB
      have h2 : (runFG a sF).1 = sF := runFG_noNest_fst a h.1 sF
      have htr : (runB a sB).2.1 = (runFG a sF).2.1 := congrArg Prod.fst hagree
      have hout2 : (runFG a sF).2.2 = (runB a sB).2.2 :=
        (congrArg Prod.snd hagree).symm
      cases hout : (runB a sB).2.2 with
      | normal =>
          rw [hout] at hout2
          have hb := ihb h.2 ((runB a sB).1) ((runFG a sF).1)
            (by rw [h1, h2]; exact he) (by rw [h1, h2]; exact hv)
          simp only [runB, runFG, hout, hout2]
          rw [htr, congrArg Prod.fst hb, congrArg Prod.snd hb]
      | recognized e =>
          rw [hout] at hout2
          simp only [runB, runFG, hout, hout2]
          rw [htr]
      | unrecognized =>
          rw [hout] at hout2
          simp only [runB, runFG, hout, hout2]
          rw [htr]
  | withHook m body ih => intro h; simp [noNest] at h

/-- Running any block preserves the property that a disabled hook has its
`saved_value` reset to the default (value-initialized) value: every nested
teardown writes `enabled := false` and `saved_value := {}` together, and
every nested setup turns `enabled` on. -/
lemma runB_savedOk [Inhabited α] (blk : Block α ε) :
    ∀ s : BState α ε, (s.enabled = false → s.saved_value = default) →
      ((runB blk s).1.enabled = false → (runB blk s).1.saved_value = default) := by
  induction blk with
  | skip => intro s h; simpa [runB] using h
  | check real => intro s h; simpa [runB] using h
  | throwRec e => intro s h; simpa [runB] using h
  | throwUnrec => intro s h; simpa [runB] using h
  | seq a b iha ihb =>
      intro s h
      cases hout : (runB a s).2.2 with
      | normal => simp only [runB, hout]; exact ihb _ (iha s h)
      | recognized e => simp only [runB, hout]; exact iha s h
      | unrecognized => simp only [runB, hout]; exact iha s h
  | withHook m body ih =>
      intro s h
      have hbody := ih (setupB s m) (by simp [setupB])
      cases hout : (runB body (setupB s m)).2.2 with
      | normal => simp only [runB, hout]; simp [teardownB]
      | recognized e => simp only [runB, hout]; simp [teardownB]
      | unrecognized => simp only [runB, hout]; exact hbody

/-- Running a block never decreases the hold count of the recursive mutex:
nested activations that complete release exactly the lock they acquired, and
unrecognizably terminating ones keep it. -/
lemma runB_lock_le [Inhabited α] (blk : Block α ε) :
    ∀ s : BState α ε, s.lockCount ≤ (runB blk s).1.lockCount := by
  induction blk with
  | skip => intro s; simp [runB]
  | check real => intro s; simp [runB]
  | throwRec e => intro s; simp [runB]
  | throwUnrec => intro s; simp [runB]
  | seq a b iha ihb =>
      intro s
      cases hout : (runB a s).2.2 with
      | normal =>
          simp only [runB, hout]
          exact le_trans (iha s) (ihb ((runB a s).1))
      | recognized e => simp only [runB, hout]; exact iha s
      | unrecognized => simp only [runB, hout]; exact iha s
  | withHook m body ih =>
      intro s
      have hbody := ih (setupB s m)
      have hsetup : s.lockCount + 1 = (setupB s m).lockCount := rfl
      cases hout : (runB body (setupB s m)).2.2 with
      | normal =>
          simp only [runB, hout, teardownB]
          omega
      | recognized e =>
          simp only [runB, hout, teardownB]
          omega
      | unrecognized =>
          simp only [runB, hout]
          omega

/-- The barrier controller never decreases the mutex hold count either. -/
lemma MKMOCK_WITH_ENABLED_HOOK_lock_le [Inhabited α] (s : BState α ε)
    (m : α) (blk : Block α ε) :
    s.lockCount ≤ (MKMOCK_WITH_ENABLED_HOOK s m blk).1.lockCount := by
  have hbody := runB_lock_le blk (setupB s m)
  have hsetup : s.lockCount + 1 = (setupB s m).lockCount := rfl
  cases hout : (runB blk (setupB s m)).2.2 with
  | normal =>
      simp only [MKMOCK_WITH_ENABLED_HOOK, hout, teardownB]
      omega
  | recognized e =>
      simp only [MKMOCK_WITH_ENABLED_HOOK, hout, teardownB]
      omega
  | unrecognized =>
      simp only [MKMOCK_WITH_ENABLED_HOOK, hout]
      omega

/-- States of the barrier-variant hook reachable between top-level controller
invocations: the freshly constructed singleton (`MKMOCK_DEFINE_HOOK`, member
initializers `enabled = false`, `value = {}` overridden here by an arbitrary
real value `v0`, `saved_value = {}`, empty `saved_exc`, unlocked mutex), and
anything a completed or escaped `MKMOCK_WITH_ENABLED_HOOK` leaves behind.
`MKMOCK_HOOK` and `MKMOCK_HOOK_ALLOC` do not modify the hook state, so they
add no transitions. -/
inductive reachableB [Inhabited α] (v0 : α) : BState α ε → Prop where
  | init : reachableB v0 ⟨false, v0, default, none, 0⟩
  | step (s : BState α ε) (m : α) (blk : Block α ε) :
      reachableB v0 s → reachableB v0 (MKMOCK_WITH_ENABLED_HOOK s m blk).1

/-- C1, counterexample.  The claim states that after any code block that
returns normally, `MKMOCK_WITH_ENABLED_HOOK` leaves `enabled == false` and
`value` equal to its pre-call value.  In the barrier variant a nested
activation of the same tag — which the implementation note in
`src/mkmock.hpp` explicitly supports — overwrites the outer invocation
`saved_value` (line 101) and then resets it to `{}` at its own teardown
(line 115), so the outer teardown restores `value` to the default `{}`
instead of the pre-call value: starting from `value = 1` with mock `3` and
the block `MKMOCK_WITH_ENABLED_HOOK(Tag, 2, {})`, the call returns normally
but leaves `value = 0`, not `1`. -/
theorem c1_counterexample :
    (MKMOCK_WITH_ENABLED_HOOK (⟨false, 1, 0, none, 0⟩ : BState Nat Nat) 3
        (.withHook 2 .skip)).2.2 = RunResult.ok ∧
    ¬ (MKMOCK_WITH_ENABLED_HOOK (⟨false, 1, 0, none, 0⟩ : BState Nat Nat) 3
        (.withHook 2 .skip)).1.value = 1 := by
  decide

/-- C1, amended: for every tag, mocked value, and code block that returns
normally and performs no nested activation of the same tag, after
`MKMOCK_WITH_ENABLED_HOOK` returns the hook state has `enabled == false` and
`value` equal to its pre-call value; the fine-grained variant satisfies this
for all blocks, nested activations included, because its saved value lives
in a stack local of each activation. -/
theorem c1_restore_on_normal_return {α ε : Type} [Inhabited α] :
    (∀ (s : BState α ε) (m : α) (blk : Block α ε),
        noNest blk = true →
        (MKMOCK_WITH_ENABLED_HOOK s m blk).2.2 = RunResult.ok →
        (MKMOCK_WITH_ENABLED_HOOK s m blk).1.enabled = false ∧
        (MKMOCK_WITH_ENABLED_HOOK s m blk).1.value = s.value) ∧
    (∀ (s : FGState α) (m : α) (blk : Block α ε),
        (MKMOCK_WITH_ENABLED_HOOK_fineGrained s m blk).2.2 = RunResult.ok →
        (MKMOCK_WITH_ENABLED_HOOK_fineGrained s m blk).1.enabled = false ∧
        (MKMOCK_WITH_ENABLED_HOOK_fineGrained s m blk).1.value = s.value) := by
  constructor
  · intro s m blk hn hok
    have hfst := runB_noNest_fst blk hn (setupB s m)
    cases hout : (runB blk (setupB s m)).2.2 with
    | normal =>
        simp only [MKMOCK_WITH_ENABLED_HOOK, hout, teardownB, hfst]
        simp [setupB]
    | recognized e =>
        exfalso
        simp [MKMOCK_WITH_ENABLED_HOOK, hout, teardownB] at hok
    | unrecognized =>
        exfalso
        simp [MKMOCK_WITH_ENABLED_HOOK, hout] at hok
  · intro s m blk hok
    cases hout : (runFG blk ⟨true, m⟩).2.2 with
    | normal => simp [MKMOCK_WITH_ENABLED_HOOK_fineGrained, hout]
    | recognized e =>
        exfalso
        simp [MKMOCK_WITH_ENABLED_HOOK_fineGrained, hout] at hok
    | unrecognized =>
        exfalso
        simp [MKMOCK_WITH_ENABLED_HOOK_fineGrained, hout] at hok

/-- Witness for `c1_restore_on_normal_return` at concrete inputs: a block
consisting of one `MKMOCK_HOOK` call site, run with pre-call value `1` and
mock `3`, in both variants. -/
theorem c1_restore_on_normal_return_witness :
    ((MKMOCK_WITH_ENABLED_HOOK (⟨false, 1, 0, none, 0⟩ : BState Nat Nat) 3
        (.check 9)).1.enabled = false ∧
      (MKMOCK_WITH_ENABLED_HOOK (⟨false, 1, 0, none, 0⟩ : BState Nat Nat) 3
        (.check 9)).1.value = 1) ∧
    ((MKMOCK_WITH_ENABLED_HOOK_fineGrained (⟨false, 1⟩ : FGState Nat) 3
        ((.check 9 : Block Nat Nat))).1.enabled = false ∧
      (MKMOCK_WITH_ENABLED_HOOK_fineGrained (⟨false, 1⟩ : FGState Nat) 3
        ((.check 9 : Block Nat Nat))).1.value = 1) :=
  ⟨c1_restore_on_normal_return.1 ⟨false, 1, 0, none, 0⟩ 3 (.check 9)
      (by decide) (by decide),
    c1_restore_on_normal_return.2 ⟨false, 1⟩ 3 (.check 9) (by decide)⟩

/-- C2, counterexample.  The claim states that when the block raises a
recognized error, `MKMOCK_WITH_ENABLED_HOOK` re-raises it with `value`
already restored to its pre-call value.  In the barrier variant a nested
same-tag activation clobbers `saved_value`, so with pre-call value `1`,
mock `3`, and the block `{ MKMOCK_WITH_ENABLED_HOOK(Tag, 2, {}); throw e; }`
the error is re-raised but `value` ends at the default `0`, not `1`. -/
theorem c2_counterexample :
    (MKMOCK_WITH_ENABLED_HOOK (⟨false, 1, 0, none, 0⟩ : BState Nat Nat) 3
        (.seq (.withHook 2 .skip) (.throwRec 7))).2.2 = RunResult.raised 7 ∧
    ¬ (MKMOCK_WITH_ENABLED_HOOK (⟨false, 1, 0, none, 0⟩ : BState Nat Nat) 3
        (.seq (.withHook 2 .skip) (.throwRec 7))).1.value = 1 := by
  decide

/-- C2, amended: for every tag, mocked value, and block that raises a
recognized error (an exception derived from `std::exception`) and performs
no nested activation of the same tag, `MKMOCK_WITH_ENABLED_HOOK` re-raises
that same error, and the state it hands back alongside the re-raise already
has `enabled == false` and `value` restored to its pre-call value (in the
barrier variant the rethrow at line 120 of `src/mkmock.hpp` happens after
the restore at lines 113-114, in the fine-grained one at line 89 after
lines 85-86); the fine-grained variant satisfies this for all blocks,
nested activations included. -/
theorem c2_reraise_after_restore {α ε : Type} [Inhabited α] :
    (∀ (s : BState α ε) (m : α) (blk : Block α ε) (e : ε),
        noNest blk = true →
        (runB blk (setupB s m)).2.2 = Outcome.recognized e →
        (MKMOCK_WITH_ENABLED_HOOK s m blk).2.2 = RunResult.raised e ∧
        (MKMOCK_WITH_ENABLED_HOOK s m blk).1.enabled = false ∧
        (MKMOCK_WITH_ENABLED_HOOK s m blk).1.value = s.value) ∧
    (∀ (s : FGState α) (m : α) (blk : Block α ε) (e : ε),
        (runFG blk ⟨true, m⟩).2.2 = Outcome.recognized e →
        (MKMOCK_WITH_ENABLED_HOOK_fineGrained s m blk).2.2 = RunResult.raised e ∧
        (MKMOCK_WITH_ENABLED_HOOK_fineGrained s m blk).1.enabled = false ∧
        (MKMOCK_WITH_ENABLED_HOOK_fineGrained s m blk).1.value = s.value) := by
  constructor
  · intro s m blk e hn hout
    have hfst := runB_noNest_fst blk hn (setupB s m)
    simp only [MKMOCK_WITH_ENABLED_HOOK, hout, teardownB, hfst]
    simp [setupB]
  · intro s m blk e hout
    simp [MKMOCK_WITH_ENABLED_HOOK_fineGrained, hout]

/-- Witness for `c2_reraise_after_restore` at concrete inputs: the block
that just throws a recognized error `7`, run with pre-call value `1` and
mock `3`, in both variants. -/
theorem c2_reraise_after_restore_witness :
    ((MKMOCK_WITH_ENABLED_HOOK (⟨false, 1, 0, none, 0⟩ : BState Nat Nat) 3
        (.throwRec 7)).2.2 = RunResult.raised 7 ∧
      (MKMOCK_WITH_ENABLED_HOOK (⟨false, 1, 0, none, 0⟩ : BState Nat Nat) 3
        (.throwRec 7)).1.enabled = false ∧
      (MKMOCK_WITH_ENABLED_HOOK (⟨false, 1, 0, none, 0⟩ : BState Nat Nat) 3
        (.throwRec 7)).1.value = 1) ∧
    ((MKMOCK_WITH_ENABLED_HOOK_fineGrained (⟨false, 1⟩ : FGState Nat) 3
        (.throwRec 7)).2.2 = RunResult.raised 7 ∧
      (MKMOCK_WITH_ENABLED_HOOK_fineGrained (⟨false, 1⟩ : FGState Nat) 3
        (.throwRec 7)).1.enabled = false ∧
      (MKMOCK_WITH_ENABLED_HOOK_fineGrained (⟨false, 1⟩ : FGState Nat) 3
        (.throwRec 7)).1.value = 1) :=
  ⟨c2_reraise_after_restore.1 ⟨false, 1, 0, none, 0⟩ 3 (.throwRec 7) 7
      (by decide) (by decide),
    c2_reraise_after_restore.2 ⟨false, 1⟩ 3 (.throwRec 7) 7 (by decide)⟩

/-- C3, counterexample.  The claim states that when the block terminates
with an unrecognized error, the hook state is left with `enabled == true`
and `value` still the mocked value.  If the block first runs a nested
same-tag activation to completion and only then terminates unrecognizably,
the nested teardown has already set `enabled = false`, so the state escapes
with `enabled == false`: starting from `value = 1` with mock `3` and the
block `{ MKMOCK_WITH_ENABLED_HOOK(Tag, 2, {}); terminate; }`, the error
escapes but `enabled` is `false`, not `true`. -/
theorem c3_counterexample :
    (MKMOCK_WITH_ENABLED_HOOK (⟨false, 1, 0, none, 0⟩ : BState Nat Nat) 3
        (.seq (.withHook 2 .skip) .throwUnrec)).2.2 = RunResult.escaped ∧
    ¬ (MKMOCK_WITH_ENABLED_HOOK (⟨false, 1, 0, none, 0⟩ : BState Nat Nat) 3
        (.seq (.withHook 2 .skip) .throwUnrec)).1.enabled = true := by
  decide

/-- C3, amended: for every tag, mocked value, and block that terminates
with an unrecognized error (not derived from `std::exception`) and performs
no nested activation of the same tag, both variants of
`MKMOCK_WITH_ENABLED_HOOK` propagate the error immediately, bypassing
capture and restoration, leaving the hook state with `enabled == true` and
`value` still equal to the mocked value. -/
theorem c3_escape_skips_restore {α ε : Type} [Inhabited α] :
    (∀ (s : BState α ε) (m : α) (blk : Block α ε),
        noNest blk = true →
        (runB blk (setupB s m)).2.2 = Outcome.unrecognized →
        (MKMOCK_WITH_ENABLED_HOOK s m blk).2.2 = RunResult.escaped ∧
        (MKMOCK_WITH_ENABLED_HOOK s m blk).1.enabled = true ∧
        (MKMOCK_WITH_ENABLED_HOOK s m blk).1.value = m) ∧
    (∀ (s : FGState α) (m : α) (blk : Block α ε),
        noNest blk = true →
        (runFG blk ⟨true, m⟩).2.2 = Outcome.unrecognized →
        (MKMOCK_WITH_ENABLED_HOOK_fineGrained s m blk).2.2 = RunResult.escaped ∧
        (MKMOCK_WITH_ENABLED_HOOK_fineGrained s m blk).1.enabled = true ∧
        (MKMOCK_WITH_ENABLED_HOOK_fineGrained s m blk).1.value = m) := by
  constructor
  · intro s m blk hn hout
    have hfst := runB_noNest_fst blk hn (setupB s m)
    simp only [MKMOCK_WITH_ENABLED_HOOK, hout, hfst]
    simp [setupB]
  · intro s m blk hn hout
    have hfst := runFG_noNest_fst blk hn ⟨true, m⟩
    simp only [MKMOCK_WITH_ENABLED_HOOK_fineGrained, hout, hfst]
    simp

/-- Witness for `c3_escape_skips_restore` at concrete inputs: the block
that terminates unrecognizably at once, run with pre-call value `1` and
mock `3`, in both variants. -/
theorem c3_escape_skips_restore_witness :
    ((MKMOCK_WITH_ENABLED_HOOK (⟨false, 1, 0, none, 0⟩ : BState Nat Nat) 3
        .throwUnrec).2.2 = RunResult.escaped ∧
      (MKMOCK_WITH_ENABLED_HOOK (⟨false, 1, 0, none, 0⟩ : BState Nat Nat) 3
        .throwUnrec).1.enabled = true ∧
      (MKMOCK_WITH_ENABLED_HOOK (⟨false, 1, 0, none, 0⟩ : BState Nat Nat) 3
        .throwUnrec).1.value = 3) ∧
    ((MKMOCK_WITH_ENABLED_HOOK_fineGrained (⟨false, 1⟩ : FGState Nat) 3
        (.throwUnrec : Block Nat Nat)).2.2 = RunResult.escaped ∧
      (MKMOCK_WITH_ENABLED_HOOK_fineGrained (⟨false, 1⟩ : FGState Nat) 3
        (.throwUnrec : Block Nat Nat)).1.enabled = true ∧
      (MKMOCK_WITH_ENABLED_HOOK_fineGrained (⟨false, 1⟩ : FGState Nat) 3
        (.throwUnrec : Block Nat Nat)).1.value = 3) :=
  ⟨c3_escape_skips_restore.1 ⟨false, 1, 0, none, 0⟩ 3 .throwUnrec
      (by decide) (by decide),
    c3_escape_skips_restore.2 ⟨false, 1⟩ 3 .throwUnrec (by decide) (by decide)⟩

/-- C4: when the hook state has `enabled == false`, `MKMOCK_HOOK` leaves
the caller slot unchanged, whatever its prior contents — in both
variants. -/
theorem c4_check_disabled_keeps_slot {α ε : Type} :
    (∀ (s : BState α ε) (slot : α), s.enabled = false →
        MKMOCK_HOOK s slot = slot) ∧
    (∀ (s : FGState α) (slot : α), s.enabled = false →
        MKMOCK_HOOK_fineGrained s slot = slot) := by
  refine ⟨fun s slot h => ?_, fun s slot h => ?_⟩
  · simp [MKMOCK_HOOK, h]
  · simp [MKMOCK_HOOK_fineGrained, h]

/-- Witness for `c4_check_disabled_keeps_slot` at concrete inputs: disabled
states with `value = 5` leave a slot holding `9` untouched in both
variants. -/
theorem c4_check_disabled_keeps_slot_witness :
    MKMOCK_HOOK (⟨false, 5, 0, none, 0⟩ : BState Nat Nat) 9 = 9 ∧
    MKMOCK_HOOK_fineGrained (⟨false, 5⟩ : FGState Nat) 9 = 9 :=
  ⟨(@c4_check_disabled_keeps_slot Nat Nat).1 ⟨false, 5, 0, none, 0⟩ 9 rfl,
    (@c4_check_disabled_keeps_slot Nat Nat).2 ⟨false, 5⟩ 9 rfl⟩

/-- C5: when the hook state has `enabled == true` and `value == V`,
`MKMOCK_HOOK` sets the caller slot to `V` regardless of its prior
contents — in both variants. -/
theorem c5_check_enabled_overrides_slot {α ε : Type} :
    (∀ (s : BState α ε) (slot v : α), s.enabled = true → s.value = v →
        MKMOCK_HOOK s slot = v) ∧
    (∀ (s : FGState α) (slot v : α), s.enabled = true → s.value = v →
        MKMOCK_HOOK_fineGrained s slot = v) := by
  refine ⟨fun s slot v he hv => ?_, fun s slot v he hv => ?_⟩
  · simp [MKMOCK_HOOK, he, hv]
  · simp [MKMOCK_HOOK_fineGrained, he, hv]

/-- Witness for `c5_check_enabled_overrides_slot` at concrete inputs:
enabled states with `value = 5` overwrite a slot holding `9` with `5` in
both variants. -/
theorem c5_check_enabled_overrides_slot_witness :
    MKMOCK_HOOK (⟨true, 5, 0, none, 0⟩ : BState Nat Nat) 9 = 5 ∧
    MKMOCK_HOOK_fineGrained (⟨true, 5⟩ : FGState Nat) 9 = 5 :=
  ⟨(@c5_check_enabled_overrides_slot Nat Nat).1 ⟨true, 5, 0, none, 0⟩ 9 5 rfl rfl,
    (@c5_check_enabled_overrides_slot Nat Nat).2 ⟨true, 5⟩ 9 5 rfl rfl⟩

/-- C6: `MKMOCK_HOOK_ALLOC` invokes the deleter exactly once, on the
pre-override pointer held by the slot, precisely when the hook is enabled
and that pointer is not `nullptr`; with the hook disabled, or with a
`nullptr` slot, the deleter is never invoked. -/
theorem c6_alloc_release_iff {β ε : Type} :
    ∀ (s : BState (Option β) ε) (slot : Option β),
      (∀ p : β, slot = some p →
        ((MKMOCK_HOOK_ALLOC s slot).2 = [p] ↔ s.enabled = true)) ∧
      (s.enabled = false → (MKMOCK_HOOK_ALLOC s slot).2 = []) ∧
      (slot = none → (MKMOCK_HOOK_ALLOC s slot).2 = []) := by
  intro s slot
  refine ⟨fun p hp => ?_, fun h => ?_, fun h => ?_⟩
  · subst hp
    cases he : s.enabled <;> simp [MKMOCK_HOOK_ALLOC, he]
  · simp [MKMOCK_HOOK_ALLOC, h]
  · subst h
    cases he : s.enabled <;> simp [MKMOCK_HOOK_ALLOC, he]

/-- Witness for `c6_alloc_release_iff` at concrete inputs: enabled hook with
mock `none`, slot holding pointer `5`: the deleter receives exactly `5`;
and a disabled hook with the same slot invokes no deleter. -/
theorem c6_alloc_release_iff_witness :
    (MKMOCK_HOOK_ALLOC (⟨true, none, none, none, 0⟩ : BState (Option Nat) Nat)
        (some 5)).2 = [5] ∧
    (MKMOCK_HOOK_ALLOC (⟨false, none, none, none, 0⟩ : BState (Option Nat) Nat)
        (some 5)).2 = [] :=
  ⟨((c6_alloc_release_iff ⟨true, none, none, none, 0⟩ (some 5)).1 5 rfl).mpr rfl,
    (c6_alloc_release_iff ⟨false, none, none, none, 0⟩ (some 5)).2.1 rfl⟩

/-- C7: in every barrier-variant hook state reachable between top-level
controller invocations, `enabled` and `saved_value` form a matched pair:
whenever `enabled == false`, `saved_value` holds the default
(value-initialized) value.  Setup (lines 101-103 of `src/mkmock.hpp`) turns
`enabled` on when it stores a meaningful `saved_value`, and teardown
(lines 113-115) clears both together. -/
theorem c7_saved_value_matched_pair {α ε : Type} [Inhabited α] (v0 : α)
    (s : BState α ε) (h : reachableB v0 s) :
    s.enabled = false → s.saved_value = default := by
  induction h with
  | init => intro _; rfl
  | step s2 m blk hr ih =>
      intro hd
      cases hout : (runB blk (setupB s2 m)).2.2 with
      | normal =>
          simp only [MKMOCK_WITH_ENABLED_HOOK, hout, teardownB]
      | recognized e =>
          simp only [MKMOCK_WITH_ENABLED_HOOK, hout, teardownB]
      | unrecognized =>
          have hsaved := runB_savedOk blk (setupB s2 m) (by simp [setupB])
          simp only [MKMOCK_WITH_ENABLED_HOOK, hout] at hd ⊢
          exact hsaved hd

/-- Witness for `c7_saved_value_matched_pair`: the state reached from a
fresh hook with real value `1` by one completed controller invocation
(mock `3`, block one `MKMOCK_HOOK` call site) is disabled and has
`saved_value = 0`. -/
theorem c7_saved_value_matched_pair_witness :
    (MKMOCK_WITH_ENABLED_HOOK (⟨false, 1, 0, none, 0⟩ : BState Nat Nat) 3
        (.check 9)).1.saved_value = 0 :=
  c7_saved_value_matched_pair 1 _
    (reachableB.step ⟨false, 1, 0, none, 0⟩ 3 (.check 9) reachableB.init)
    (by decide)

/-- C8: for single-threaded executions with one controller invocation at a
time (no nested same-tag activation, no concurrent checks), the barrier
variant and the fine-grained variant are observationally equivalent: on
hook states agreeing on `enabled` and `value`, `MKMOCK_HOOK` produces the
same slot contents, and `MKMOCK_WITH_ENABLED_HOOK` makes the code block
observe the same substituted values at its call sites, hands the same
result (normal return, re-raised error, or escape) to the caller, and
leaves the same `(enabled, value)` pair in the hook state. -/
theorem c8_variants_observationally_equivalent {α ε : Type} [Inhabited α] :
    (∀ (sB : BState α ε) (sF : FGState α) (slot : α),
        sB.enabled = sF.enabled → sB.value = sF.value →
        MKMOCK_HOOK sB slot = MKMOCK_HOOK_fineGrained sF slot) ∧
    (∀ (s : BState α ε) (m : α) (blk : Block α ε), noNest blk = true →
        (MKMOCK_WITH_ENABLED_HOOK s m blk).2.1 =
          (MKMOCK_WITH_ENABLED_HOOK_fineGrained ⟨s.enabled, s.value⟩ m blk).2.1 ∧
        (MKMOCK_WITH_ENABLED_HOOK s m blk).2.2 =
          (MKMOCK_WITH_ENABLED_HOOK_fineGrained ⟨s.enabled, s.value⟩ m blk).2.2 ∧
        (MKMOCK_WITH_ENABLED_HOOK s m blk).1.enabled =
          (MKMOCK_WITH_ENABLED_HOOK_fineGrained ⟨s.enabled, s.value⟩ m blk).1.enabled ∧
        (MKMOCK_WITH_ENABLED_HOOK s m blk).1.value =
          (MKMOCK_WITH_ENABLED_HOOK_fineGrained ⟨s.enabled, s.value⟩ m blk).1.value) := by
  constructor
  · intro sB sF slot he hv
    simp [MKMOCK_HOOK, MKMOCK_HOOK_fineGrained, he, hv]
  · intro s m blk hn
    have hagree := run_noNest_agree blk hn (setupB s m) ⟨true, m⟩ rfl rfl
    have htr : (runB blk (setupB s m)).2.1 = (runFG blk ⟨true, m⟩).2.1 :=
      congrArg Prod.fst hagree
    have houtF : (runFG blk ⟨true, m⟩).2.2 = (runB blk (setupB s m)).2.2 :=
      (congrArg Prod.snd hagree).symm
    have hfstB := runB_noNest_fst blk hn (setupB s m)
    have hfstF := runFG_noNest_fst blk hn ⟨true, m⟩
    cases hout : (runB blk (setupB s m)).2.2 with
    | normal =>
        rw [hout] at houtF
        simp only [MKMOCK_WITH_ENABLED_HOOK, MKMOCK_WITH_ENABLED_HOOK_fineGrained,
          hout, houtF, teardownB, hfstB]
        rw [htr]
        simp [setupB]
    | recognized e =>
        rw [hout] at houtF
        simp only [MKMOCK_WITH_ENABLED_HOOK, MKMOCK_WITH_ENABLED_HOOK_fineGrained,
          hout, houtF, teardownB, hfstB]
        rw [htr]
        simp [setupB]
    | unrecognized =>
        rw [hout] at houtF
        simp only [MKMOCK_WITH_ENABLED_HOOK, MKMOCK_WITH_ENABLED_HOOK_fineGrained,
          hout, houtF, hfstB, hfstF]
        rw [htr]
        simp [setupB]

/-- Witness for `c8_variants_observationally_equivalent` at concrete
inputs: states agreeing on `(enabled, value) = (false, 1)`, mock `3`, and
the block with one call site followed by a recognized error. -/
theorem c8_variants_observationally_equivalent_witness :
    MKMOCK_HOOK (⟨false, 1, 0, none, 0⟩ : BState Nat Nat) 9 =
      MKMOCK_HOOK_fineGrained (⟨false, 1⟩ : FGState Nat) 9 ∧
    ((MKMOCK_WITH_ENABLED_HOOK (⟨false, 1, 0, none, 0⟩ : BState Nat Nat) 3
        (.seq (.check 9) (.throwRec 7))).2.1 =
      (MKMOCK_WITH_ENABLED_HOOK_fineGrained (⟨false, 1⟩ : FGState Nat) 3
        (.seq (.check 9) (.throwRec 7))).2.1 ∧
     (MKMOCK_WITH_ENABLED_HOOK (⟨false, 1, 0, none, 0⟩ : BState Nat Nat) 3
        (.seq (.check 9) (.throwRec 7))).2.2 =
      (MKMOCK_WITH_ENABLED_HOOK_fineGrained (⟨false, 1⟩ : FGState Nat) 3
        (.seq (.check 9) (.throwRec 7))).2.2 ∧
     (MKMOCK_WITH_ENABLED_HOOK (⟨false, 1, 0, none, 0⟩ : BState Nat Nat) 3
        (.seq (.check 9) (.throwRec 7))).1.enabled =
      (MKMOCK_WITH_ENABLED_HOOK_fineGrained (⟨false, 1⟩ : FGState Nat) 3
        (.seq (.check 9) (.throwRec 7))).1.enabled ∧
     (MKMOCK_WITH_ENABLED_HOOK (⟨false, 1, 0, none, 0⟩ : BState Nat Nat) 3
        (.seq (.check 9) (.throwRec 7))).1.value =
      (MKMOCK_WITH_ENABLED_HOOK_fineGrained (⟨false, 1⟩ : FGState Nat) 3
        (.seq (.check 9) (.throwRec 7))).1.value) :=
  ⟨c8_variants_observationally_equivalent.1 ⟨false, 1, 0, none, 0⟩ ⟨false, 1⟩ 9
      rfl rfl,
    c8_variants_observationally_equivalent.2 ⟨false, 1, 0, none, 0⟩ 3
      (.seq (.check 9) (.throwRec 7)) (by decide)⟩

/-- C9: with `MKMOCK_HOOK_ENABLE` undefined, `MKMOCK_HOOK` and
`MKMOCK_HOOK_ALLOC` expand to nothing: the caller slot is unchanged, no
deleter is ever invoked, and no hook state is touched (none even exists on
these paths). -/
theorem c9_compiled_out_noop {α β : Type} :
    (∀ slot : α, MKMOCK_HOOK_disabled slot = slot) ∧
    (∀ slot : Option β,
        MKMOCK_HOOK_ALLOC_disabled slot = (slot, ([] : List β))) :=
  ⟨fun _ => rfl, fun _ => rfl⟩

/-- Witness for `c9_compiled_out_noop` at concrete slots. -/
theorem c9_compiled_out_noop_witness :
    MKMOCK_HOOK_disabled 9 = 9 ∧
    MKMOCK_HOOK_ALLOC_disabled (some 5) = (some 5, ([] : List Nat)) :=
  ⟨(@c9_compiled_out_noop Nat Nat).1 9, (@c9_compiled_out_noop Nat Nat).2 (some 5)⟩

/-- C10: in the barrier variant, a block terminating with an unrecognized
error makes `MKMOCK_WITH_ENABLED_HOOK` escape with the recursive mutex hold
count strictly above what it was at entry — the `lock()` of line 99 of
`src/mkmock.hpp` is never matched by the `unlock()` of line 118, which sits
in the skipped teardown — and once the count is positive no later
same-thread `MKMOCK_WITH_ENABLED_HOOK` (nor `MKMOCK_HOOK`, which does not
modify the state) ever brings it back to zero, so another thread, which can
acquire the recursive mutex only at hold count zero, blocks indefinitely on
any later check or override of the same tag. -/
theorem c10_escape_keeps_mutex_locked {α ε : Type} [Inhabited α] :
    (∀ (s : BState α ε) (m : α) (blk : Block α ε),
        (MKMOCK_WITH_ENABLED_HOOK s m blk).2.2 = RunResult.escaped →
        s.lockCount + 1 ≤ (MKMOCK_WITH_ENABLED_HOOK s m blk).1.lockCount) ∧
    (∀ (s : BState α ε) (m : α) (blk : Block α ε),
        0 < s.lockCount →
        0 < (MKMOCK_WITH_ENABLED_HOOK s m blk).1.lockCount) := by
  constructor
  · intro s m blk hesc
    cases hout : (runB blk (setupB s m)).2.2 with
    | normal =>
        exfalso
        cases hexc : ((runB blk (setupB s m)).1).saved_exc <;>
          simp [MKMOCK_WITH_ENABLED_HOOK, hout, teardownB, hexc] at hesc
    | recognized e =>
        exfalso
        simp [MKMOCK_WITH_ENABLED_HOOK, hout, teardownB] at hesc
    | unrecognized =>
        have hle := runB_lock_le blk (setupB s m)
        have hsetup : (setupB s m).lockCount = s.lockCount + 1 := rfl
        simp only [MKMOCK_WITH_ENABLED_HOOK, hout]
        omega
  · intro s m blk h
    have hle := MKMOCK_WITH_ENABLED_HOOK_lock_le s m blk
    omega

/-- Witness for `c10_escape_keeps_mutex_locked`: from an unlocked state, a
block that terminates unrecognizably leaves the hold count at least `1`;
and a later override run while the count is `1` keeps it positive. -/
theorem c10_escape_keeps_mutex_locked_witness :
    0 + 1 ≤ (MKMOCK_WITH_ENABLED_HOOK (⟨false, 1, 0, none, 0⟩ : BState Nat Nat)
        3 .throwUnrec).1.lockCount ∧
    0 < (MKMOCK_WITH_ENABLED_HOOK (⟨false, 1, 0, none, 1⟩ : BState Nat Nat)
        3 (.check 9)).1.lockCount :=
  ⟨c10_escape_keeps_mutex_locked.1 ⟨false, 1, 0, none, 0⟩ 3 .throwUnrec
      (by decide),
    c10_escape_keeps_mutex_locked.2 ⟨false, 1, 0, none, 1⟩ 3 (.check 9)
      (by decide)⟩

end Mkmock
